import Mathlib

/-!
Verification development for the h265_project_archiver repository
(src/archive_and_transcode.py, src/davinci_transcoder.py).

The definitions below are a shallow embedding of the scripts' pure decision
logic.  Filesystem state, DaVinci Resolve RPC results and probe verdicts are
passed in explicitly; every definition mirrors the corresponding Python
function's control flow.
-/

/-! ## String helpers (Python `str.lower`, `in`, `pathlib.PurePath.suffix/stem`) -/

/-- Python `str.lower` restricted to ASCII, as used on extensions and stems. -/
def strLower (s : String) : String := String.mk (s.toList.map Char.toLower)

/-- Index of the right-most dot in a character list, scanning left to right. -/
def rfindDotAux : List Char → Nat → Option Nat → Option Nat
  | [], _, acc => acc
  | c :: cs, i, acc => rfindDotAux cs (i + 1) (if c = '.' then some i else acc)

/-- Python `str.rfind for a dot`, returning the index of the last dot. -/
def rfindDot (s : List Char) : Option Nat := rfindDotAux s 0 none

/-- Python `pathlib.PurePath.suffix` of a file name: the final dot-suffix,
empty when the name has no dot, starts with its only dot, or ends in a dot. -/
def suffixOf (name : String) : String :=
  let cs := name.toList
  match rfindDot cs with
  | none => ""
  | some i => if 0 < i ∧ i + 1 < cs.length then String.mk (cs.drop i) else ""

/-- Python `pathlib.PurePath.stem` of a file name: the name minus its suffix. -/
def stemOf (name : String) : String :=
  let cs := name.toList
  match rfindDot cs with
  | none => name
  | some i => if 0 < i ∧ i + 1 < cs.length then String.mk (cs.take i) else name

/-- Check that a character list starts with the pattern list. -/
def leadsWith : List Char → List Char → Bool
  | [], _ => true
  | _ :: _, [] => false
  | a :: as, b :: bs => a = b && leadsWith as bs

/-- Python substring test `pat in s`. -/
def isSubstr (pat s : String) : Bool :=
  let p := pat.toList
  let t := s.toList
  (List.range (t.length + 1)).any (fun i => leadsWith p (t.drop i))

/-! ## Module-level configuration constants of the two scripts -/

/-- EXCLUDE_DIRS of archive_and_transcode.py (line 62). -/
def EXCLUDE_DIRS_archive : List String := ["Exports", "Proxies", "Proxy"]

/-- EXCLUDE_DIRS of davinci_transcoder.py (line 64). -/
def EXCLUDE_DIRS_davinci : List String := ["Exports", "Proxies"]

/-- EXCLUDE_FILE_PATTERNS, identical in both scripts. -/
def EXCLUDE_FILE_PATTERNS : List String := ["_proxy"]

/-- Default --video-exts of both scripts' argument parsers. -/
def default_video_exts : List String := [".mxf", ".mp4", ".mov", ".crm", ".avi"]

/-- Default --raw-exts of both scripts' argument parsers. -/
def default_raw_exts : List String :=
  [".arw", ".cr2", ".cr3", ".nef", ".dng", ".raf", ".orf", ".rw2", ".sr2"]

/-- Python `suffix.lower() in {e.lower() for e in exts}` on a file name. -/
def suffInList (f : String) (exts : List String) : Bool :=
  exts.any (fun e => strLower e == strLower (suffixOf f))

/-- Python `any(pat in f.lower() for pat in EXCLUDE_FILE_PATTERNS)` of
davinci_transcoder.py's gather_files (lines 183-184). -/
def nameMatchesPattern (f : String) : Bool :=
  EXCLUDE_FILE_PATTERNS.any (fun pat => isSubstr pat (strLower f))

/-! ## Directory trees and the `os.walk`-based gather_files of both scripts -/

/-- A directory: its name, subdirectories and plain file names.  The argument
of `os.walk`. -/
inductive FsTree where
  | dir (name : String) (subdirs : List FsTree) (files : List String)

/-- A file entry as collected by gather_files: the directory components of the
file's path below the walk root, and the file name. -/
abbrev FE := List String × String

/-- Concatenation of two (non_media, media) result pairs, matching the append
order of `os.walk`'s top-down traversal. -/
def joinRes (a b : List FE × List FE) : List FE × List FE := (a.1 ++ b.1, a.2 ++ b.2)

/-- The inner `for f in files` loop of gather_files, shared by both scripts:
a file satisfying `dropC` is skipped entirely, one satisfying `mediaC` goes to
the media list, every other file goes to the non-media list. -/
def walkFiles (dropC mediaC : String → Bool) (path : List String) : List String → List FE × List FE
  | [] => ([], [])
  | f :: fs =>
    let rest := walkFiles dropC mediaC path fs
    if dropC f then rest
    else if mediaC f then (rest.1, (path, f) :: rest.2)
    else ((path, f) :: rest.1, rest.2)

/-- Traversal of a pruned forest: `os.walk` with
`dirs[:] = [d for d in dirs if d not in EXCLUDE_DIRS]` applied at every level;
a subdirectory whose name is in `excl` is never descended into. -/
def walkForest (excl : List String) (dropC mediaC : String → Bool) (path : List String) :
    List FsTree → List FE × List FE
  | [] => ([], [])
  | FsTree.dir nm subs files :: ts =>
    if excl.contains nm then walkForest excl dropC mediaC path ts
    else joinRes
      (joinRes (walkFiles dropC mediaC (path ++ [nm]) files)
               (walkForest excl dropC mediaC (path ++ [nm]) subs))
      (walkForest excl dropC mediaC path ts)

/-- Files visited by the pruned walk, before any per-file classification. -/
def visitForest (excl : List String) (path : List String) : List FsTree → List FE
  | [] => []
  | FsTree.dir nm subs files :: ts =>
    if excl.contains nm then visitForest excl path ts
    else (files.map (fun f => (path ++ [nm], f)) ++ visitForest excl (path ++ [nm]) subs)
      ++ visitForest excl path ts

/-- All files the pruned walk of a source tree visits.  The walk root itself is
never pruned, matching `os.walk(src)`. -/
def visitedFiles (excl : List String) : FsTree → List FE
  | .dir _ subs files => files.map (fun f => ([], f)) ++ visitForest excl [] subs

/-- Skeleton of gather_files: classify the root's own files, then the pruned
forest below it. -/
def gatherCore (excl : List String) (dropC mediaC : String → Bool) : FsTree → List FE × List FE
  | .dir _ subs files => joinRes (walkFiles dropC mediaC [] files) (walkForest excl dropC mediaC [] subs)

/-- gather_files of archive_and_transcode.py (lines 165-193): raw-extension
files are dropped entirely, video-extension files are media, the rest are
assets.  EXCLUDE_FILE_PATTERNS is not consulted in this script. -/
def gather_files_archive (video_exts raw_exts : List String) (t : FsTree) : List FE × List FE :=
  gatherCore EXCLUDE_DIRS_archive (fun f => suffInList f raw_exts) (fun f => suffInList f video_exts) t

/-- gather_files of davinci_transcoder.py (lines 167-193): files whose name
contains an excluded pattern are dropped entirely, files with a video or raw
extension are media, the rest are assets. -/
def gather_files_davinci (video_exts raw_exts : List String) (t : FsTree) : List FE × List FE :=
  gatherCore EXCLUDE_DIRS_davinci nameMatchesPattern
    (fun f => suffInList f video_exts || suffInList f raw_exts) t

/-! ## is_readable of both scripts -/

/-- is_readable of archive_and_transcode.py (lines 196-230), with the
filesystem state (existence, size in bytes) and the decode-probe verdict given
explicitly.  Result: the returned boolean, paired with whether the decode
probe (PyAV or the FFmpeg fallback) was invoked at all. -/
def is_readable_archive (onDisk : Bool) (size : Nat) (probe : Bool) : Bool × Bool :=
  if !onDisk || size == 0 then (false, false) else (probe, true)

/-- is_readable of davinci_transcoder.py (lines 196-210), same conventions.
Only non-existence short-circuits; there is no zero-size check. -/
def is_readable_davinci (onDisk : Bool) (_size : Nat) (probe : Bool) : Bool × Bool :=
  if !onDisk then (false, false) else (probe, true)

/-! ## transcode_with_resolve of both scripts -/

/-- Environment of one transcode_with_resolve call of archive_and_transcode.py:
the on-disk state of the output file and the outcome of each fallible external
step, in source order.  `unlinkResults k` is the outcome the k-th deletion
attempt would have (the script only ever performs attempt 0). -/
structure ArchiveEnv where
  hasAlpha : Bool
  outExists : Bool
  outReadable : Bool
  unlinkResults : Nat → Bool
  importOk : Bool
  timelineOk : Bool
  appendOk : Bool
  verifyOk : Bool
  queueOk : Bool
  renderComplete : Bool
  outReadablePost : Bool

/-- Environment of one transcode_with_resolve call of davinci_transcoder.py. -/
structure DavinciEnv where
  outExists : Bool
  outReadable : Bool
  unlinkResults : Nat → Bool
  importOk : Bool
  templateOk : Bool
  appendOk : Bool
  queueOk : Bool
  outReadablePost : Bool

/-- Observable outcome of one transcode_with_resolve call: the returned
boolean, whether StartRendering was invoked, and how many deletion attempts
were made on a pre-existing output. -/
structure RenderOutcome where
  success : Bool
  renderStarted : Bool
  deleteAttempts : Nat
deriving DecidableEq

/-- Steps 4-11 of archive_and_transcode.transcode_with_resolve (lines 333-461):
import, timeline creation, append, track verification, job queueing, the
render-status check (line 443) and the post-render integrity re-check
(line 446). -/
def renderPhaseA (env : ArchiveEnv) (attempts : Nat) : RenderOutcome :=
  if !env.importOk then ⟨false, false, attempts⟩
  else if !env.timelineOk then ⟨false, false, attempts⟩
  else if !env.appendOk then ⟨false, false, attempts⟩
  else if !env.verifyOk then ⟨false, false, attempts⟩
  else if !env.queueOk then ⟨false, false, attempts⟩
  else if !env.renderComplete then ⟨false, true, attempts⟩
  else if !env.outReadablePost then ⟨false, true, attempts⟩
  else ⟨true, true, attempts⟩

/-- transcode_with_resolve of archive_and_transcode.py (lines 296-461).
`none` models an uncaught exception: when has_alpha_channel is true the script
evaluates the undefined global PRESET_NAME_ALPHA (line 304) and raises
NameError before reaching the skip check.  Otherwise: a readable existing
output is skipped (lines 313-316); a corrupt existing output is deleted with a
single `unlink` attempt whose OSError is caught and returned as failure
(lines 318-322); then the render phase runs. -/
def transcode_with_resolve_archive (env : ArchiveEnv) : Option RenderOutcome :=
  if env.hasAlpha then none
  else if env.outExists && env.outReadable then some ⟨true, false, 0⟩
  else if env.outExists then
    if env.unlinkResults 0 then some (renderPhaseA env 1) else some ⟨false, false, 1⟩
  else some (renderPhaseA env 0)

/-- Steps after deletion in davinci_transcoder.transcode_with_resolve
(lines 247-344): import, timeline-template import, append, job queueing, and
the post-render integrity check that alone decides the return value
(lines 340-344); no render-status query exists in this script. -/
def renderPhaseD (env : DavinciEnv) (attempts : Nat) : RenderOutcome :=
  if !env.importOk then ⟨false, false, attempts⟩
  else if !env.templateOk then ⟨false, false, attempts⟩
  else if !env.appendOk then ⟨false, false, attempts⟩
  else if !env.queueOk then ⟨false, false, attempts⟩
  else if env.outReadablePost then ⟨true, true, attempts⟩
  else ⟨false, true, attempts⟩

/-- transcode_with_resolve of davinci_transcoder.py (lines 231-344).  The
single `out_file.unlink()` (line 245) is not wrapped in try/except, so a
failed deletion propagates an OSError out of the function, modelled as
`none`. -/
def transcode_with_resolve_davinci (env : DavinciEnv) : Option RenderOutcome :=
  if env.outExists && env.outReadable then some ⟨true, false, 0⟩
  else if env.outExists then
    if env.unlinkResults 0 then some (renderPhaseD env 1) else none
  else some (renderPhaseD env 0)

/-! ## The asset-mirroring loop of both scripts' __main__ blocks -/

/-- What the per-asset loop body does with one asset. -/
inductive MirrorAction where
  | sidecarSkipped
  | existingSkipped
  | copied
deriving DecidableEq

/-- The `media_stems_by_dir.get(f.parent, set())` lookup (both scripts):
lower-cased stems of all media files whose parent directory equals `dirOf`. -/
def mediaStemsFor (media : List FE) (dirOf : List String) : List String :=
  (media.filter (fun m => m.1 == dirOf)).map (fun m => strLower (stemOf m.2))

/-- Body of the asset-copy loop (archive_and_transcode.py lines 495-512,
davinci_transcoder.py lines 378-395): skip side-cars whose lowered stem
matches a media stem in the same directory, then skip destinations already
present with byte-identical size, otherwise copy. -/
def mirrorStep (media : List FE) (f : FE) (destExists : Bool) (destSize srcSize : Nat) :
    MirrorAction :=
  if (mediaStemsFor media f.1).contains (strLower (stemOf f.2)) then MirrorAction.sidecarSkipped
  else if destExists && destSize == srcSize then MirrorAction.existingSkipped
  else MirrorAction.copied

/-- The full asset-copy loop over the non-media list; `fsOf` gives each
asset's (destination exists, destination size, source size) state. -/
def mirrorRun (media assets : List FE) (fsOf : FE → Bool × Nat × Nat) :
    List (FE × MirrorAction) :=
  assets.map (fun f => (f, mirrorStep media f (fsOf f).1 (fsOf f).2.1 (fsOf f).2.2))

/-- Number of assets the mirroring loop actually copies. -/
def countCopies (l : List (FE × MirrorAction)) : Nat :=
  (l.filter (fun p => p.2 == MirrorAction.copied)).length

/-! ## The transcode loop of both scripts' __main__ blocks -/

/-- The per-media loop over media_all with archive_and_transcode's
transcode_with_resolve, each file in its own environment. -/
def transcodeBatchA (envOf : FE → ArchiveEnv) (ms : List FE) :
    List (FE × Option RenderOutcome) :=
  ms.map (fun x => (x, transcode_with_resolve_archive (envOf x)))

/-- Number of media entries for which StartRendering was invoked. -/
def countRenders (l : List (FE × Option RenderOutcome)) : Nat :=
  (l.filter (fun p => match p.2 with | some o => o.renderStarted | none => false)).length

/-- The `for clip_path in media_all` loop of both __main__ blocks: each entry
is processed in order; a false outcome is logged (collected in the second
component) and the loop continues; `none` models an exception aborting the
run, truncating processing at that entry. -/
def transcodeLoop {α : Type} (outcome : α → Option Bool) : List α → List (α × Bool) × List α
  | [] => ([], [])
  | x :: xs =>
    match outcome x with
    | none => ([], [])
    | some b =>
      let rest := transcodeLoop outcome xs
      ((x, b) :: rest.1, if b then rest.2 else x :: rest.2)

/-! ## Destination-path computation of transcode_with_resolve -/

/-- Python `pathlib.Path.relative_to`: strip a prefix, or raise (none) when
the root is not a prefix of the path.  Paths are component lists. -/
def relative_to_py (root p : List String) : Option (List String) :=
  if root == p.take root.length then some (p.drop root.length) else none

/-- Python `src_root in clip_path.parents`: the root is a proper ancestor of
the path, i.e. a strictly shorter prefix of its component list. -/
def isProperAncestorB (root p : List String) : Bool :=
  decide (root.length < p.length) && root == p.take root.length

/-- Last component of a path (the file name). -/
def lastOf (p : List String) : String := p.getLastD ""

/-- Line 299 of archive_and_transcode.py / line 234 of davinci_transcoder.py:
`rel = clip_path.relative_to(src_root) if src_root in clip_path.parents else
Path(base)`. -/
def relOf (root p : List String) : Option (List String) :=
  if isProperAncestorB root p then relative_to_py root p else some [stemOf (lastOf p)]

/-- Destination file of archive_and_transcode.transcode_with_resolve
(lines 296-309): `archive_root / rel.parent / (base + ext)` with ext chosen
by the alpha-channel probe. -/
def out_file_archive (root archive p : List String) (alpha : Bool) : Option (List String) :=
  (relOf root p).map
    (fun rel => archive ++ rel.dropLast ++ [stemOf (lastOf p) ++ (if alpha then ".mov" else ".mp4")])

/-- Destination file of davinci_transcoder.transcode_with_resolve
(lines 231-238): always an .mp4. -/
def out_file_davinci (root archive p : List String) : Option (List String) :=
  (relOf root p).map (fun rel => archive ++ rel.dropLast ++ [stemOf (lastOf p) ++ ".mp4"])

/-! ## Concrete inputs used by closed theorems and witnesses -/

/-- A source tree holding a single proxy-named video file. -/
def proxyTree : FsTree := FsTree.dir "src" [] ["foo_proxy.mov"]

/-- A source tree holding a single raw still-image file. -/
def rawTree : FsTree := FsTree.dir "src" [] ["photo.cr2"]

/-- A source tree whose only file sits inside an excluded Exports folder. -/
def exportsTree : FsTree := FsTree.dir "src" [FsTree.dir "Exports" [] ["x.mov"]] []

/-- Environment of an alpha-channel clip whose valid output already exists. -/
def alphaSkipEnv : ArchiveEnv :=
  ⟨true, true, true, fun _ => true, true, true, true, true, true, true, true⟩

/-- Environment of a non-alpha clip whose valid output already exists. -/
def validSkipEnv : ArchiveEnv :=
  ⟨false, true, true, fun _ => true, true, true, true, true, true, true, true⟩

/-- Environment of a corrupt pre-existing output on which the first deletion
attempt fails but any further attempt would succeed, with every later step
able to succeed. -/
def lockedEnv : ArchiveEnv :=
  ⟨false, true, false, fun n => decide (0 < n), true, true, true, true, true, true, true⟩

/-- The davinci-side environment matching lockedEnv. -/
def lockedEnvD : DavinciEnv :=
  ⟨true, false, fun n => decide (0 < n), true, true, true, true, true⟩

/-- Environment of a corrupt pre-existing output whose deletion succeeds and
whose subsequent render steps all succeed. -/
def unlockedEnv : ArchiveEnv :=
  ⟨false, true, false, fun _ => true, true, true, true, true, true, true, true⟩

/-- Environment of a fresh render that completes but whose output then fails
the integrity re-check. -/
def renderFailEnv : ArchiveEnv :=
  ⟨false, false, false, fun _ => true, true, true, true, true, true, true, false⟩

/-! ## General lemmas about the pruned walk -/

theorem contains_true_iff (l : List String) (a : String) : l.contains a = true ↔ a ∈ l :=
  List.elem_iff

theorem walkFiles_eq (dC mC : String → Bool) (path : List String) (fs : List String) :
    walkFiles dC mC path fs
      = ((fs.filter (fun f => !dC f && !mC f)).map (fun f => (path, f)),
         (fs.filter (fun f => !dC f && mC f)).map (fun f => (path, f))) := by
  induction fs with
  | nil => rfl
  | cons f fs ih =>
    simp only [walkFiles, ih, List.filter_cons]
    cases h1 : dC f <;> cases h2 : mC f <;> simp [h1, h2]

theorem walkFiles_mem_fst (dC mC : String → Bool) (path : List String) (fs : List String)
    (fe : FE) :
    fe ∈ (walkFiles dC mC path fs).1 ↔
      fe ∈ fs.map (fun f => (path, f)) ∧ dC fe.2 = false ∧ mC fe.2 = false := by
  rw [walkFiles_eq]
  simp only [List.mem_map, List.mem_filter, Bool.and_eq_true, Bool.not_eq_true']
  constructor
  · rintro ⟨a, ⟨ha, h1, h2⟩, rfl⟩
    exact ⟨⟨a, ha, rfl⟩, h1, h2⟩
  · rintro ⟨⟨a, ha, rfl⟩, h1, h2⟩
    exact ⟨a, ⟨ha, h1, h2⟩, rfl⟩

theorem walkFiles_mem_snd (dC mC : String → Bool) (path : List String) (fs : List String)
    (fe : FE) :
    fe ∈ (walkFiles dC mC path fs).2 ↔
      fe ∈ fs.map (fun f => (path, f)) ∧ dC fe.2 = false ∧ mC fe.2 = true := by
  rw [walkFiles_eq]
  simp only [List.mem_map, List.mem_filter, Bool.and_eq_true, Bool.not_eq_true']
  constructor
  · rintro ⟨a, ⟨ha, h1, h2⟩, rfl⟩
    exact ⟨⟨a, ha, rfl⟩, h1, h2⟩
  · rintro ⟨⟨a, ha, rfl⟩, h1, h2⟩
    exact ⟨a, ⟨ha, h1, h2⟩, rfl⟩

set_option maxHeartbeats 1000000 in
theorem walkForest_mem (excl : List String) (dC mC : String → Bool) (path : List String)
    (l : List FsTree) (fe : FE) :
    (fe ∈ (walkForest excl dC mC path l).1 ↔
       fe ∈ visitForest excl path l ∧ dC fe.2 = false ∧ mC fe.2 = false)
    ∧ (fe ∈ (walkForest excl dC mC path l).2 ↔
       fe ∈ visitForest excl path l ∧ dC fe.2 = false ∧ mC fe.2 = true) := by
  induction path, l using walkForest.induct excl dC mC with
  | case1 path =>
    rw [walkForest, visitForest]
    simp
  | case2 path nm subs files ts h ih =>
    rw [walkForest, if_pos h, visitForest, if_pos h]
    exact ih
  | case3 path nm subs files ts h ih1 ih2 =>
    obtain ⟨ihs1, ihs2⟩ := ih1
    obtain ⟨iht1, iht2⟩ := ih2
    rw [walkForest, if_neg h, visitForest, if_neg h]
    constructor
    · simp only [joinRes, List.mem_append]
      rw [walkFiles_mem_fst, ihs1, iht1]
      tauto
    · simp only [joinRes, List.mem_append]
      rw [walkFiles_mem_snd, ihs2, iht2]
      tauto

theorem mem_map_pair (p : List String) (files : List String) (fe : FE) :
    fe ∈ files.map (fun f => (p, f)) ↔ fe.1 = p ∧ fe.2 ∈ files := by
  rcases fe with ⟨a, b⟩
  simp only [List.mem_map, Prod.mk.injEq]
  constructor
  · rintro ⟨f, hf, rfl, rfl⟩
    exact ⟨rfl, hf⟩
  · rintro ⟨rfl, hb⟩
    exact ⟨b, hb, rfl, rfl⟩

theorem visitForest_path (excl : List String) (path : List String) (l : List FsTree) :
    ∀ fe ∈ visitForest excl path l,
      ∃ q, fe.1 = path ++ q ∧ ∀ d ∈ q, excl.contains d = false := by
  induction path, l using visitForest.induct excl with
  | case1 path =>
    rw [visitForest]
    simp
  | case2 path nm subs files ts h ih =>
    rw [visitForest, if_pos h]
    exact ih
  | case3 path nm subs files ts h ih1 ih2 =>
    rw [visitForest, if_neg h]
    have hb : excl.contains nm = false := by
      simpa using h
    intro fe hfe
    rcases List.mem_append.mp hfe with hfe' | hts
    · rcases List.mem_append.mp hfe' with hmap | hsub
      · refine ⟨[nm], (mem_map_pair _ _ _ |>.mp hmap).1, ?_⟩
        intro d hd
        rw [List.mem_singleton.mp hd]
        exact hb
      · obtain ⟨q, hq, hgood⟩ := ih1 fe hsub
        refine ⟨nm :: q, ?_, ?_⟩
        · rw [hq]
          simp
        · intro d hd
          rcases List.mem_cons.mp hd with rfl | hd'
          · exact hb
          · exact hgood d hd'
    · exact ih2 fe hts

theorem gatherCore_mem (excl : List String) (dC mC : String → Bool) (t : FsTree) (fe : FE) :
    (fe ∈ (gatherCore excl dC mC t).1 ↔
       fe ∈ visitedFiles excl t ∧ dC fe.2 = false ∧ mC fe.2 = false)
    ∧ (fe ∈ (gatherCore excl dC mC t).2 ↔
       fe ∈ visitedFiles excl t ∧ dC fe.2 = false ∧ mC fe.2 = true) := by
  cases t with
  | dir nm subs files =>
    obtain ⟨hf1, hf2⟩ := walkForest_mem excl dC mC [] subs fe
    rw [gatherCore, visitedFiles]
    constructor
    · simp only [joinRes, List.mem_append]
      rw [walkFiles_mem_fst, hf1]
      tauto
    · simp only [joinRes, List.mem_append]
      rw [walkFiles_mem_snd, hf2]
      tauto

theorem visitedFiles_path (excl : List String) (t : FsTree) (fe : FE)
    (hfe : fe ∈ visitedFiles excl t) :
    ∀ d ∈ fe.1, excl.contains d = false := by
  cases t with
  | dir nm subs files =>
    rw [visitedFiles] at hfe
    rcases List.mem_append.mp hfe with hmap | hsub
    · intro d hd
      rw [(mem_map_pair _ _ _ |>.mp hmap).1] at hd
      simp at hd
    · obtain ⟨q, hq, hgood⟩ := visitForest_path excl [] subs fe hsub
      rw [hq, List.nil_append]
      exact hgood

theorem gather_not_mem_of_excluded (excl : List String) (dC mC : String → Bool) (t : FsTree)
    (p : List String) (f : String) (d : String) (hd : d ∈ p) (hex : d ∈ excl) :
    (p, f) ∉ (gatherCore excl dC mC t).1 ∧ (p, f) ∉ (gatherCore excl dC mC t).2 := by
  constructor
  · intro hmem
    have hv := ((gatherCore_mem excl dC mC t (p, f)).1.mp hmem).1
    have hfalse := visitedFiles_path excl t (p, f) hv d hd
    have htrue := (contains_true_iff excl d).mpr hex
    rw [hfalse] at htrue
    exact Bool.noConfusion htrue
  · intro hmem
    have hv := ((gatherCore_mem excl dC mC t (p, f)).2.mp hmem).1
    have hfalse := visitedFiles_path excl t (p, f) hv d hd
    have htrue := (contains_true_iff excl d).mpr hex
    rw [hfalse] at htrue
    exact Bool.noConfusion htrue

/-- C3: hard prune of excluded directories — for every directory tree and
every file whose path passes through a directory whose name is in the
script's excluded-directory set, gather_files includes that file in neither
the assets output list nor the media output list, in
archive_and_transcode.py and davinci_transcoder.py alike. -/
theorem C3_hard_prune (v r : List String) (t : FsTree) (p : List String) (f : String) :
    ((∃ d ∈ p, d ∈ EXCLUDE_DIRS_archive) →
      (p, f) ∉ (gather_files_archive v r t).1 ∧ (p, f) ∉ (gather_files_archive v r t).2)
    ∧ ((∃ d ∈ p, d ∈ EXCLUDE_DIRS_davinci) →
      (p, f) ∉ (gather_files_davinci v r t).1 ∧ (p, f) ∉ (gather_files_davinci v r t).2) := by
  constructor
  · rintro ⟨d, hd, hex⟩
    exact gather_not_mem_of_excluded EXCLUDE_DIRS_archive _ _ t p f d hd hex
  · rintro ⟨d, hd, hex⟩
    exact gather_not_mem_of_excluded EXCLUDE_DIRS_davinci _ _ t p f d hd hex

/-- Witness for C3 at a concrete tree whose only file sits under Exports. -/
theorem C3_hard_prune_witness :
    ((∃ d ∈ ["Exports"], d ∈ EXCLUDE_DIRS_archive)
      ∧ (["Exports"], "x.mov") ∉ (gather_files_archive default_video_exts default_raw_exts exportsTree).1
      ∧ (["Exports"], "x.mov") ∉ (gather_files_archive default_video_exts default_raw_exts exportsTree).2)
    ∧ ((∃ d ∈ ["Exports"], d ∈ EXCLUDE_DIRS_davinci)
      ∧ (["Exports"], "x.mov") ∉ (gather_files_davinci default_video_exts default_raw_exts exportsTree).1
      ∧ (["Exports"], "x.mov") ∉ (gather_files_davinci default_video_exts default_raw_exts exportsTree).2) :=
  ⟨⟨by decide,
    (C3_hard_prune default_video_exts default_raw_exts exportsTree ["Exports"] "x.mov").1 (by decide)⟩,
   ⟨by decide,
    (C3_hard_prune default_video_exts default_raw_exts exportsTree ["Exports"] "x.mov").2 (by decide)⟩⟩

/-- C4 (code-bug evidence): foo_proxy.mov matches the excluded name pattern,
yet archive_and_transcode.py's gather_files still returns it in the media
list — that script never consults EXCLUDE_FILE_PATTERNS, contradicting the
comment at its lines 64-66 and the loop comment at line 521 —
while davinci_transcoder.py's gather_files drops the file from both lists. -/
theorem C4_pattern_exclusion :
    nameMatchesPattern "foo_proxy.mov" = true
    ∧ gather_files_archive default_video_exts default_raw_exts proxyTree
        = ([], [([], "foo_proxy.mov")])
    ∧ gather_files_davinci default_video_exts default_raw_exts proxyTree = ([], []) := by
  refine ⟨by decide, ?_, ?_⟩
  · simp only [gather_files_archive, proxyTree, gatherCore, walkForest]
    decide
  · simp only [gather_files_davinci, proxyTree, gatherCore, walkForest]
    decide

/-- C5 counterexample: photo.cr2 is visited by the pruned walk, matches no
excluded name pattern and sits under no excluded directory, yet
archive_and_transcode.py's gather_files returns it in neither output list. -/
theorem C5_partition_counterexample :
    nameMatchesPattern "photo.cr2" = false
    ∧ visitedFiles EXCLUDE_DIRS_archive rawTree = [([], "photo.cr2")]
    ∧ gather_files_archive default_video_exts default_raw_exts rawTree = ([], []) := by
  refine ⟨by decide, ?_, ?_⟩
  · simp only [rawTree, visitedFiles, visitForest]
    decide
  · simp only [gather_files_archive, rawTree, gatherCore, walkForest]
    decide

/-- C5 amended: classification is a partition with a raw-file exception in
archive_and_transcode.py — every file visited by the pruned walk whose
extension is in the raw set appears in neither list and every other visited
file appears in exactly one of {assets, media} (name patterns are not
consulted); in davinci_transcoder.py every visited file matching an excluded
name pattern appears in neither list and every other visited file appears in
exactly one of the two lists (raw extensions classified as media). -/
theorem C5_partition_amended (v r : List String) (t : FsTree) (fe : FE) :
    (fe ∈ visitedFiles EXCLUDE_DIRS_archive t →
      (suffInList fe.2 r = false →
        (fe ∈ (gather_files_archive v r t).1 ∧ fe ∉ (gather_files_archive v r t).2)
        ∨ (fe ∉ (gather_files_archive v r t).1 ∧ fe ∈ (gather_files_archive v r t).2))
      ∧ (suffInList fe.2 r = true →
        fe ∉ (gather_files_archive v r t).1 ∧ fe ∉ (gather_files_archive v r t).2))
    ∧ (fe ∈ visitedFiles EXCLUDE_DIRS_davinci t →
      (nameMatchesPattern fe.2 = false →
        (fe ∈ (gather_files_davinci v r t).1 ∧ fe ∉ (gather_files_davinci v r t).2)
        ∨ (fe ∉ (gather_files_davinci v r t).1 ∧ fe ∈ (gather_files_davinci v r t).2))
      ∧ (nameMatchesPattern fe.2 = true →
        fe ∉ (gather_files_davinci v r t).1 ∧ fe ∉ (gather_files_davinci v r t).2)) := by
  constructor
  · intro hv
    obtain ⟨H1, H2⟩ :=
      gatherCore_mem EXCLUDE_DIRS_archive (fun f => suffInList f r) (fun f => suffInList f v) t fe
    simp only [gather_files_archive]
    rw [H1, H2]
    constructor
    · intro hraw
      cases hm : suffInList fe.2 v
      · left
        simp [hv, hraw, hm]
      · right
        simp [hv, hraw, hm]
    · intro hraw
      simp [hraw]
  · intro hv
    obtain ⟨H1, H2⟩ :=
      gatherCore_mem EXCLUDE_DIRS_davinci nameMatchesPattern
        (fun f => suffInList f v || suffInList f r) t fe
    simp only [gather_files_davinci]
    rw [H1, H2]
    constructor
    · intro hpat
      cases hm : (suffInList fe.2 v || suffInList fe.2 r)
      · left
        simp [hv, hpat, hm]
      · right
        simp [hv, hpat, hm]
    · intro hpat
      simp [hpat]

/-- Witness for C5: the amended statement applied to the photo.cr2 tree. -/
theorem C5_partition_amended_witness :
    ([], "photo.cr2") ∉ (gather_files_archive default_video_exts default_raw_exts rawTree).1
    ∧ ([], "photo.cr2") ∉ (gather_files_archive default_video_exts default_raw_exts rawTree).2 :=
  ((C5_partition_amended default_video_exts default_raw_exts rawTree ([], "photo.cr2")).1
    (by simp only [rawTree, visitedFiles, visitForest]; decide)).2 (by decide)

/-! ## Helper lemmas for the transcode and mirror theorems -/

theorem transcode_archive_skip (env : ArchiveEnv) (h1 : env.hasAlpha = false)
    (h2 : env.outExists = true) (h3 : env.outReadable = true) :
    transcode_with_resolve_archive env = some ⟨true, false, 0⟩ := by
  unfold transcode_with_resolve_archive
  rw [if_neg (by simp [h1]), if_pos (by simp [h2, h3])]

theorem mirrorStep_not_copied_of_existing (media : List FE) (f : FE) (destExists : Bool)
    (destSize srcSize : Nat) (h1 : destExists = true) (h2 : destSize = srcSize) :
    mirrorStep media f destExists destSize srcSize ≠ MirrorAction.copied := by
  subst h1
  subst h2
  unfold mirrorStep
  split_ifs with hs he
  · simp
  · simp
  · simp at he

/-! ## Claim theorems -/

/-- C1 (code-bug evidence plus the holding cases): for an alpha-channel clip,
archive_and_transcode.transcode_with_resolve evaluates the undefined global
PRESET_NAME_ALPHA (line 304) and raises NameError even when a valid output
already exists, so the documented skip never happens there; for every
non-alpha clip whose output exists and passes the integrity check, the call
performs no render, makes no deletion attempt and returns success; an asset
whose destination exists with byte-identical size is never copied; hence a
second run over lists of such files performs zero copies and zero renders. -/
theorem C1_idempotence :
    transcode_with_resolve_archive alphaSkipEnv = none
    ∧ (∀ env : ArchiveEnv, env.hasAlpha = false → env.outExists = true →
        env.outReadable = true →
        transcode_with_resolve_archive env = some ⟨true, false, 0⟩)
    ∧ (∀ (media : List FE) (f : FE) (destExists : Bool) (destSize srcSize : Nat),
        destExists = true → destSize = srcSize →
        mirrorStep media f destExists destSize srcSize ≠ MirrorAction.copied)
    ∧ (∀ (media assets : List FE) (fsOf : FE → Bool × Nat × Nat),
        (∀ f ∈ assets, (fsOf f).1 = true ∧ (fsOf f).2.1 = (fsOf f).2.2) →
        countCopies (mirrorRun media assets fsOf) = 0)
    ∧ (∀ (ms : List FE) (envOf : FE → ArchiveEnv),
        (∀ x ∈ ms, (envOf x).hasAlpha = false ∧ (envOf x).outExists = true
          ∧ (envOf x).outReadable = true) →
        countRenders (transcodeBatchA envOf ms) = 0) := by
  refine ⟨rfl, ?_, ?_, ?_, ?_⟩
  · intro env h1 h2 h3
    exact transcode_archive_skip env h1 h2 h3
  · intro media f destExists destSize srcSize h1 h2
    exact mirrorStep_not_copied_of_existing media f destExists destSize srcSize h1 h2
  · intro media assets fsOf hall
    unfold countCopies mirrorRun
    rw [List.length_eq_zero, List.filter_eq_nil_iff]
    intro a ha
    obtain ⟨f, hf, rfl⟩ := List.mem_map.mp ha
    obtain ⟨h1, h2⟩ := hall f hf
    simp only [beq_iff_eq]
    exact mirrorStep_not_copied_of_existing media f _ _ _ h1 h2
  · intro ms envOf hall
    unfold countRenders transcodeBatchA
    rw [List.length_eq_zero, List.filter_eq_nil_iff]
    intro a ha
    obtain ⟨x, hx, rfl⟩ := List.mem_map.mp ha
    obtain ⟨h1, h2, h3⟩ := hall x hx
    simp only [transcode_archive_skip (envOf x) h1 h2 h3]
    simp

/-- Witness for C1: the holding cases applied to concrete inputs. -/
theorem C1_idempotence_witness :
    transcode_with_resolve_archive validSkipEnv = some ⟨true, false, 0⟩
    ∧ mirrorStep [] ([], "notes.txt") true 7 7 ≠ MirrorAction.copied
    ∧ countCopies (mirrorRun [] [([], "notes.txt")] (fun _ => (true, 7, 7))) = 0
    ∧ countRenders (transcodeBatchA (fun _ => validSkipEnv) [([], "clip.mov")]) = 0 :=
  ⟨C1_idempotence.2.1 validSkipEnv rfl rfl rfl,
   C1_idempotence.2.2.1 [] ([], "notes.txt") true 7 7 rfl rfl,
   C1_idempotence.2.2.2.1 [] [([], "notes.txt")] (fun _ => (true, 7, 7)) (by decide),
   C1_idempotence.2.2.2.2 [([], "clip.mov")] (fun _ => validSkipEnv) (by decide)⟩

/-- C2: side-car suppression — an asset whose base name equals the base name
of some media file in the same directory is always skipped as a side-car and
never copied; an asset whose lowered base name matches no media base name in
its directory, and whose destination does not yet exist, is copied. -/
theorem C2_sidecar_suppression :
    (∀ (media : List FE) (f : FE) (destExists : Bool) (destSize srcSize : Nat),
      (∃ m ∈ media, m.1 = f.1 ∧ stemOf m.2 = stemOf f.2) →
      mirrorStep media f destExists destSize srcSize = MirrorAction.sidecarSkipped)
    ∧ (∀ (media : List FE) (f : FE) (destSize srcSize : Nat),
      (∀ m ∈ media, m.1 = f.1 → strLower (stemOf m.2) ≠ strLower (stemOf f.2)) →
      mirrorStep media f false destSize srcSize = MirrorAction.copied) := by
  constructor
  · rintro media f dE dS sS ⟨m, hm, hdir, hstem⟩
    have hc : (mediaStemsFor media f.1).contains (strLower (stemOf f.2)) = true := by
      rw [contains_true_iff]
      unfold mediaStemsFor
      exact List.mem_map.mpr ⟨m, List.mem_filter.mpr ⟨hm, beq_iff_eq.mpr hdir⟩, by rw [hstem]⟩
    unfold mirrorStep
    rw [if_pos hc]
  · intro media f dS sS hno
    have hc : ¬ ((mediaStemsFor media f.1).contains (strLower (stemOf f.2)) = true) := by
      rw [contains_true_iff]
      unfold mediaStemsFor
      intro hmem
      obtain ⟨m, hmf, heq⟩ := List.mem_map.mp hmem
      obtain ⟨hm, hdir⟩ := List.mem_filter.mp hmf
      exact hno m hm (beq_iff_eq.mp hdir) heq
    unfold mirrorStep
    rw [if_neg hc, if_neg (by simp)]

/-- Witness for C2: clip.srt next to clip.mov is suppressed; other.srt with a
fresh destination is copied. -/
theorem C2_sidecar_suppression_witness :
    mirrorStep [([], "clip.mov")] ([], "clip.srt") true 5 5 = MirrorAction.sidecarSkipped
    ∧ mirrorStep [([], "clip.mov")] ([], "other.srt") false 0 0 = MirrorAction.copied :=
  ⟨C2_sidecar_suppression.1 [([], "clip.mov")] ([], "clip.srt") true 5 5
      ⟨([], "clip.mov"), by decide, by decide, by decide⟩,
   C2_sidecar_suppression.2 [([], "clip.mov")] ([], "other.srt") 0 0 (by decide)⟩

/-- C6 counterexample: davinci_transcoder.py's is_readable on an existing
zero-byte file invokes the decode probe and returns the probe's verdict
instead of returning false immediately. -/
theorem C6_short_circuit_counterexample :
    is_readable_davinci true 0 true = (true, true) := by
  decide

/-- C6 amended: archive_and_transcode.py's is_readable returns false without
invoking the decode probe whenever the path is missing or has size zero;
davinci_transcoder.py's is_readable short-circuits only on a missing path,
and on any existing path (zero-byte included) it invokes the probe and
returns the probe's verdict. -/
theorem C6_short_circuit_amended :
    (∀ (onDisk : Bool) (size : Nat) (probe : Bool), onDisk = false ∨ size = 0 →
      is_readable_archive onDisk size probe = (false, false))
    ∧ (∀ (size : Nat) (probe : Bool), is_readable_davinci false size probe = (false, false))
    ∧ (∀ (size : Nat) (probe : Bool), is_readable_davinci true size probe = (probe, true)) := by
  refine ⟨?_, ?_, ?_⟩
  · rintro onDisk size probe (rfl | rfl) <;> simp [is_readable_archive]
  · intro size probe
    rfl
  · intro size probe
    rfl

/-- Witness for C6: the amended short-circuit at a concrete missing file. -/
theorem C6_short_circuit_amended_witness :
    (false = false ∨ (7 : Nat) = 0) ∧ is_readable_archive false 7 true = (false, false) :=
  ⟨Or.inl rfl, C6_short_circuit_amended.1 false 7 true (Or.inl rfl)⟩

theorem renderPhaseA_fail (env : ArchiveEnv) (attempts : Nat)
    (hpost : env.outReadablePost = false) :
    (renderPhaseA env attempts).renderStarted = true →
    (renderPhaseA env attempts).success = false := by
  unfold renderPhaseA
  split_ifs <;> simp_all

theorem renderPhaseD_fail (env : DavinciEnv) (attempts : Nat)
    (hpost : env.outReadablePost = false) :
    (renderPhaseD env attempts).renderStarted = true →
    (renderPhaseD env attempts).success = false := by
  unfold renderPhaseD
  split_ifs <;> simp_all

/-- C7: post-render verification — in both scripts, whenever a call of
transcode_with_resolve actually starts a render, the render reports success
(for archive_and_transcode.py: the job status check passes), and the
integrity re-check of the output file fails, the call returns false. -/
theorem C7_post_render_verification :
    (∀ (env : ArchiveEnv) (o : RenderOutcome),
      transcode_with_resolve_archive env = some o → o.renderStarted = true →
      env.renderComplete = true → env.outReadablePost = false → o.success = false)
    ∧ (∀ (env : DavinciEnv) (o : RenderOutcome),
      transcode_with_resolve_davinci env = some o → o.renderStarted = true →
      env.outReadablePost = false → o.success = false) := by
  constructor
  · intro env o ho hstart hcomp hpost
    unfold transcode_with_resolve_archive at ho
    split_ifs at ho with h1 h2 h3 h4
    · obtain rfl := Option.some.inj ho
      simp at hstart
    · obtain rfl := Option.some.inj ho
      exact renderPhaseA_fail env 1 hpost hstart
    · obtain rfl := Option.some.inj ho
      simp at hstart
    · obtain rfl := Option.some.inj ho
      exact renderPhaseA_fail env 0 hpost hstart
  · intro env o ho hstart hpost
    unfold transcode_with_resolve_davinci at ho
    split_ifs at ho with h1 h2 h3
    · obtain rfl := Option.some.inj ho
      simp at hstart
    · obtain rfl := Option.some.inj ho
      exact renderPhaseD_fail env 1 hpost hstart
    · obtain rfl := Option.some.inj ho
      exact renderPhaseD_fail env 0 hpost hstart

/-- Witness for C7: a completed render with a failed integrity re-check. -/
theorem C7_post_render_verification_witness :
    transcode_with_resolve_archive renderFailEnv = some ⟨false, true, 0⟩
    ∧ (⟨false, true, 0⟩ : RenderOutcome).success = false :=
  ⟨by decide,
   C7_post_render_verification.1 renderFailEnv ⟨false, true, 0⟩ (by decide) rfl rfl rfl⟩

/-- C8 counterexample: with a corrupt pre-existing output whose first deletion
attempt fails but whose second attempt would succeed,
archive_and_transcode.py makes exactly one deletion attempt, starts no render
and returns failure — there is no bounded retry with pauses — and in
davinci_transcoder.py the same situation raises an uncaught OSError. -/
theorem C8_delete_retry_counterexample :
    transcode_with_resolve_archive lockedEnv = some ⟨false, false, 1⟩
    ∧ lockedEnv.unlinkResults 0 = false
    ∧ lockedEnv.unlinkResults 1 = true
    ∧ transcode_with_resolve_davinci lockedEnvD = none := by
  decide

/-- C8 amended: a pre-existing destination that fails the integrity check is
deleted with exactly one attempt; in archive_and_transcode.py a failed
deletion is caught and the file is immediately reported as failed, with no
further attempts and no render, while a successful deletion leads directly to
the fresh-render phase; in davinci_transcoder.py a failed deletion raises out
of the function. -/
theorem C8_delete_retry_amended :
    (∀ env : ArchiveEnv, env.hasAlpha = false → env.outExists = true →
      env.outReadable = false →
      ((env.unlinkResults 0 = false →
         transcode_with_resolve_archive env = some ⟨false, false, 1⟩)
       ∧ (env.unlinkResults 0 = true →
         transcode_with_resolve_archive env = some (renderPhaseA env 1)
         ∧ (renderPhaseA env 1).deleteAttempts = 1)))
    ∧ (∀ env : DavinciEnv, env.outExists = true → env.outReadable = false →
      env.unlinkResults 0 = false → transcode_with_resolve_davinci env = none) := by
  constructor
  · intro env ha he hr
    constructor
    · intro hu
      unfold transcode_with_resolve_archive
      rw [if_neg (by simp [ha]), if_neg (by simp [he, hr]), if_pos (by simp [he]),
        if_neg (by simp [hu])]
    · intro hu
      refine ⟨?_, ?_⟩
      · unfold transcode_with_resolve_archive
        rw [if_neg (by simp [ha]), if_neg (by simp [he, hr]), if_pos (by simp [he]),
          if_pos (by simp [hu])]
      · unfold renderPhaseA
        split_ifs <;> rfl
  · intro env he hr hu
    unfold transcode_with_resolve_davinci
    rw [if_neg (by simp [he, hr]), if_pos (by simp [he]), if_neg (by simp [hu])]

/-- Witness for C8: the amended statement at concrete environments. -/
theorem C8_delete_retry_amended_witness :
    transcode_with_resolve_archive lockedEnv = some ⟨false, false, 1⟩
    ∧ transcode_with_resolve_archive unlockedEnv = some (renderPhaseA unlockedEnv 1)
    ∧ transcode_with_resolve_davinci lockedEnvD = none :=
  ⟨(C8_delete_retry_amended.1 lockedEnv rfl rfl rfl).1 rfl,
   ((C8_delete_retry_amended.1 unlockedEnv rfl rfl rfl).2 rfl).1,
   C8_delete_retry_amended.2 lockedEnvD rfl rfl rfl⟩

/-- C9: failure isolation — as long as no entry raises an exception, the
per-media loop of both __main__ blocks pairs every entry of the batch with
its own outcome in order (a false outcome never truncates processing of the
remaining entries) and logs exactly the failed entries. -/
theorem C9_failure_isolation {α : Type} (outcome : α → Option Bool) (l : List α)
    (h : ∀ x ∈ l, (outcome x).isSome = true) :
    (transcodeLoop outcome l).1.map Prod.fst = l
    ∧ (transcodeLoop outcome l).2 = l.filter (fun x => outcome x == some false) := by
  induction l with
  | nil => exact ⟨rfl, rfl⟩
  | cons x xs ih =>
    obtain ⟨b, hb⟩ := Option.isSome_iff_exists.mp (h x (List.mem_cons_self x xs))
    obtain ⟨ih1, ih2⟩ := ih (fun y hy => h y (List.mem_cons_of_mem x hy))
    simp only [transcodeLoop, hb]
    cases b
    · simp [ih1, ih2, List.filter_cons, hb]
    · simp [ih1, ih2, List.filter_cons, hb]

/-- Witness for C9: a batch of three entries of which two fail. -/
theorem C9_failure_isolation_witness :
    (transcodeLoop (fun n : Nat => some (decide (n = 0))) [0, 1, 2]).1.map Prod.fst = [0, 1, 2]
    ∧ (transcodeLoop (fun n : Nat => some (decide (n = 0))) [0, 1, 2]).2
        = [0, 1, 2].filter (fun n => (fun n : Nat => some (decide (n = 0))) n == some false) :=
  C9_failure_isolation (fun n : Nat => some (decide (n = 0))) [0, 1, 2] (by decide)

/-- C10: out-of-root flattening — the guarded relative-path computation of
transcode_with_resolve never raises, and for every clip whose path is not
under the source root both scripts place the output directly in the archive
root as the clip's stem plus the output container extension, discarding the
clip's own directory structure. -/
theorem C10_out_of_root_flattening :
    (∀ root p : List String, (relOf root p).isSome = true)
    ∧ (∀ (srcRoot archiveRoot p : List String) (alpha : Bool),
        isProperAncestorB srcRoot p = false →
        out_file_archive srcRoot archiveRoot p alpha
          = some (archiveRoot ++ [stemOf (lastOf p) ++ (if alpha then ".mov" else ".mp4")]))
    ∧ (∀ srcRoot archiveRoot p : List String,
        isProperAncestorB srcRoot p = false →
        out_file_davinci srcRoot archiveRoot p
          = some (archiveRoot ++ [stemOf (lastOf p) ++ ".mp4"])) := by
  refine ⟨?_, ?_, ?_⟩
  · intro root p
    unfold relOf
    split_ifs with h
    · have h' : root = p.take root.length := by
        simp only [isProperAncestorB, Bool.and_eq_true, beq_iff_eq, decide_eq_true_eq] at h
        exact h.2
      unfold relative_to_py
      rw [if_pos (beq_iff_eq.mpr h')]
      rfl
    · rfl
  · intro srcRoot archiveRoot p alpha h
    have hrel : relOf srcRoot p = some [stemOf (lastOf p)] := by
      unfold relOf
      rw [if_neg (by simp [h])]
    unfold out_file_archive
    rw [hrel]
    simp
  · intro srcRoot archiveRoot p h
    have hrel : relOf srcRoot p = some [stemOf (lastOf p)] := by
      unfold relOf
      rw [if_neg (by simp [h])]
    unfold out_file_davinci
    rw [hrel]
    simp

/-- Witness for C10: a clip on a different drive than the source root. -/
theorem C10_out_of_root_flattening_witness :
    isProperAncestorB ["D:", "proj"] ["E:", "other", "clip.mov"] = false
    ∧ out_file_archive ["D:", "proj"] ["D:", "arch"] ["E:", "other", "clip.mov"] false
        = some (["D:", "arch"] ++ [stemOf (lastOf ["E:", "other", "clip.mov"]) ++ ".mp4"]) :=
  ⟨by decide,
   by
    have h := C10_out_of_root_flattening.2.1 ["D:", "proj"] ["D:", "arch"]
      ["E:", "other", "clip.mov"] false (by decide)
    simpa using h⟩
